import Mathlib

/-!
Shallow embedding of the `lya_emulator` repository (files `gpemulator.py`,
`lyaemu/tempdens.py`, `main.py`) and proofs about it.

Numbers are embedded as exact rationals (`ℚ`).  Arrays are lists (`Vec`) and
lists of rows (`Mat`).  Calls into external libraries — GPy's Gaussian-process
regression (`GPy.models.GPRegression` + `optimize` + `predict`),
`scipy.optimize.minimize`, `scipy.optimize.leastsq`, `scipy.special.erf`,
`np.sqrt`, `np.log10`, float `10 ** x`, and `latin_hypercube.map_to_unit_cube`
(a module of this repository not present in the sources) — are abstracted as
parameters collected in configuration structures, so every theorem holds for
any behaviour of those libraries unless it explicitly hypothesises more.
-/

abbrev Vec := List ℚ
abbrev Mat := List Vec

/-- `np.shape(m)[1]` for a 2-D array: the (common) row length. -/
def numCols (m : Mat) : Nat := (m.headD []).length

/-- `np.mean(row)`: arithmetic mean of one row (`np.mean(flux_vectors, axis=1)`
applies this to each row). -/
def rowMean (v : Vec) : ℚ := v.sum / (v.length : ℚ)

/-- Boolean-mask row selection, `m[mask]` in numpy: keeps the rows whose mask
entry is `true`, in order. -/
def boolMask (mask : List Bool) (l : List α) : List α :=
  (mask.zip l).filterMap (fun p => if p.1 then some p.2 else none)

/-- The mask `np.arange(n) != exclude`. -/
def neMask (n exclude : Nat) : List Bool :=
  (List.range n).map (fun i => decide (i ≠ exclude))

/-- `np.argsort(xs)` (external numpy routine, modelled by a stable sort): the
indices `0,…,n-1` reordered so that the values they point at are ascending. -/
def argsort (xs : Vec) : List Nat :=
  (List.range xs.length).insertionSort (fun i j => xs.getD i 0 ≤ xs.getD j 0)

/-- `np.sort` (external numpy routine, modelled by a stable sort): ascending
order, flattened input. -/
def npSort (xs : Vec) : Vec := xs.insertionSort (· ≤ ·)

/-- The training-side normalisation of one flux row by the scale factors:
`flux_vectors/scalefactors - 1`, elementwise. -/
def normalizeRow (row s : Vec) : Vec := List.zipWith (fun x sc => x / sc - 1) row s

/-- The prediction-side denormalisation of one GP-output row:
`(flux_predict+1)*scalefactors`, elementwise. -/
def denormalizeRow (row s : Vec) : Vec := List.zipWith (fun x sc => (x + 1) * sc) row s

/-- Elementwise subtraction of two matrices (numpy `a - b` on equal shapes). -/
def matSub (a b : Mat) : Mat := List.zipWith (fun r1 r2 => List.zipWith (· - ·) r1 r2) a b

/-- Elementwise division of two matrices (numpy `a / b` on equal shapes). -/
def matDiv (a b : Mat) : Mat := List.zipWith (fun r1 r2 => List.zipWith (· / ·) r1 r2) a b

/-- `v.reshape(nrows, -1)` for a flat vector `v` (row-major, assumes the length
divides evenly as numpy requires). -/
def reshapeRows (nrows : Nat) (v : Vec) : Mat :=
  (List.range nrows).map (fun i => ((v.drop (i * (v.length / nrows))).take (v.length / nrows)))

/-- Result record of `scipy.optimize.minimize` (the fields the code reads:
`res.x` — here scalar, the code's `res.x` is a one-element array — plus
`res.success` and `res.message`). -/
structure MinimizeResult where
  x : ℚ
  success : Bool
  message : String
deriving Repr, DecidableEq

/-- The external functions `gpemulator.py` calls, abstracted.  `G` is the type
of fitted GPy model objects. -/
structure GPConfig (G : Type) where
  /-- `latin_hypercube.map_to_unit_cube(pp, param_limits)` — external module,
  not in the sources; kept fully abstract. -/
  mapToUnitCube : Vec → Mat → Vec
  /-- `GPy.models.GPRegression(params_cube, normspectra, kernel=…,
  noise_var=1e-10)` followed by `gp.optimize(messages=False)`: training data in,
  fitted model out.  The kernel construction (`Linear + RBF`, optionally
  `Coregionalize`) happens inside GPy and is absorbed here, keyed by `coreg`. -/
  fitGP : Bool → Mat → Mat → G
  /-- `gp.predict(params_cube)`: returns (posterior means, posterior variances),
  one row per input point. -/
  gpPredict : G → Mat → Mat × Mat
  /-- `scipy.special.erf`. -/
  erf : ℚ → ℚ
  /-- `np.sqrt`. -/
  sqrt : ℚ → ℚ
  /-- `scipy.optimize.minimize(fun, x0)`. -/
  minimize : (ℚ → ℚ) → ℚ → MinimizeResult

/-- The state `_get_interp` writes into `self`: the fitted GP model and the
normalisation data (`self.gp`, `self.scalefactors`, `self.paramzero`). -/
structure Interp (G : Type) where
  gp : G
  scalefactors : Vec
  paramzero : Vec

/-- `SkLearnGP._get_interp(params, flux_vectors)`. -/
def getInterp (C : GPConfig G) (param_limits : Mat) (coreg : Bool)
    (params flux_vectors : Mat) : Interp G :=
  let params_cube := params.map (fun pp => C.mapToUnitCube pp param_limits)
  let medind := (argsort (flux_vectors.map rowMean)).getD (flux_vectors.length / 2) 0
  let scalefactors := flux_vectors.getD medind []
  let paramzero := params_cube.getD medind []
  let normspectra := flux_vectors.map (fun row => normalizeRow row scalefactors)
  { gp := C.fitGP coreg params_cube normspectra
    scalefactors := scalefactors
    paramzero := paramzero }

/-- `SkLearnGP.predict(params)`, reading the interpolation state `I`, the error
rescaling `sdscale` and `self.param_limits`. -/
def skPredict (C : GPConfig G) (sdscale : ℚ) (param_limits : Mat) (I : Interp G)
    (params : Mat) : Mat × Mat :=
  let params_cube := params.map (fun pp => C.mapToUnitCube pp param_limits)
  let fluxAndVar := C.gpPredict I.gp params_cube
  let mean := fluxAndVar.1.map (fun row => denormalizeRow row I.scalefactors)
  let std := fluxAndVar.2.map
    (fun row => List.zipWith (fun v sc => sdscale * C.sqrt v * sc) row I.scalefactors)
  (mean, std)

/-- `SkLearnGP.get_predict_error(test_params, test_exact)`:
`(test_exact.reshape(npoints,-1) - predict) / sigma`. -/
def getPredictError (C : GPConfig G) (sdscale : ℚ) (param_limits : Mat) (I : Interp G)
    (test_params : Mat) (test_exact : Vec) : Mat :=
  let exact := reshapeRows test_params.length test_exact
  let ps := skPredict C sdscale param_limits I test_params
  matDiv (matSub exact ps.1) ps.2

/-- `SkLearnGP._get_cv_one(exclude, params, powers)`.  Returns the interpolation
state it leaves behind (the fold overwrites `self.gp` etc.) together with the
error row `err`.  At the time `cv_rescale` runs, `self.sdscale` is `1`, passed
here as `sdscale`. -/
def getCvOne (C : GPConfig G) (param_limits : Mat) (coreg : Bool) (sdscale : ℚ)
    (exclude : Nat) (params powers : Mat) : Interp G × Vec :=
  let npowers := powers.length
  let mask := neMask npowers exclude
  let expowers := boolMask mask powers
  let exparams := boolMask mask params
  let I := getInterp C param_limits coreg exparams expowers
  let test_exact := powers.getD exclude []
  let err := (getPredictError C sdscale param_limits I [params.getD exclude []] test_exact).getD 0 []
  (I, err)

/-- The inner function `normal(sigma)` of `cv_rescale`: squared distance between
the Gaussian CDF at the sorted errors and the empirical cumulative
distribution. -/
def normalObjective (C : GPConfig G) (scales cumsum : Vec) (sigma : ℚ) : ℚ :=
  (List.zipWith (fun s c => (1/2 * (1 + C.erf (s / C.sqrt 2 / sigma)) - c) ^ 2) scales cumsum).sum

/-- The leave-one-out folds of `cv_rescale`:
`scales = [self._get_cv_one(ex, params=params, powers=powers) for ex in
range(npowers)]`, keeping also each fold's interpolation state. -/
def cvFolds (C : GPConfig G) (param_limits : Mat) (coreg : Bool) (sdscale : ℚ)
    (params powers : Mat) : List (Interp G × Vec) :=
  (List.range powers.length).map
    (fun ex => getCvOne C param_limits coreg sdscale ex params powers)

/-- `scales = np.sort(np.ravel(scales))` in `cv_rescale`. -/
def cvScales (C : GPConfig G) (param_limits : Mat) (coreg : Bool) (sdscale : ℚ)
    (params powers : Mat) : Vec :=
  npSort ((cvFolds C param_limits coreg sdscale params powers).map Prod.snd).flatten

/-- `cumsum = np.arange(np.size(scales))/np.size(scales)` in `cv_rescale`. -/
def cumsumOf (scales : Vec) : Vec :=
  (List.range scales.length).map (fun i => (i : ℚ) / (scales.length : ℚ))

/-- `res = scipy.optimize.minimize(normal, 1)` in `cv_rescale`. -/
def cvMinimizeResult (C : GPConfig G) (param_limits : Mat) (coreg : Bool) (sdscale : ℚ)
    (params powers : Mat) : MinimizeResult :=
  let scales := cvScales C param_limits coreg sdscale params powers
  C.minimize (normalObjective C scales (cumsumOf scales)) 1

/-- `SkLearnGP.cv_rescale(params, powers)`.  Returns the interpolation state of
the last fold (the folds overwrite `self.gp` etc. in turn), the returned factor
`res.x`, and the messages printed. -/
def cvRescale (C : GPConfig G) (param_limits : Mat) (coreg : Bool) (sdscale : ℚ)
    (params powers : Mat) : Option (Interp G) × ℚ × List String :=
  let folds := cvFolds C param_limits coreg sdscale params powers
  let res := cvMinimizeResult C param_limits coreg sdscale params powers
  ((folds.map Prod.fst).getLast?, res.x,
   if res.success then [] else [res.message])

/-- The state of a fully constructed `SkLearnGP` object (the fields later reads
depend on). -/
structure SkState (G : Type) where
  params : Mat
  param_limits : Mat
  coreg : Bool
  sdscale : ℚ
  interp : Interp G

/-- `SkLearnGP.__init__(params=…, powers=…, param_limits=…, coreg=…, cv=…)`.
Sets `sdscale = 1`, optionally runs `cv_rescale` (whose folds build and discard
interpolation states), then builds the full-data interpolator.  Returns the
final object state and the printed messages. -/
def skInit (C : GPConfig G) (params powers param_limits : Mat)
    (coreg : Bool := false) (cv : Bool := true) : SkState G × List String :=
  let cvres := if cv then some (cvRescale C param_limits coreg 1 params powers) else none
  let sdscale := match cvres with
    | some r => r.2.1
    | none => 1
  let log := (match cvres with
    | some r => r.2.2
    | none => []) ++ ["Rescaling errors by: "]
  let I := getInterp C param_limits coreg params powers
  ({ params := params, param_limits := param_limits, coreg := coreg,
     sdscale := sdscale, interp := I }, log)

/-- `powers[:, a:b]`: the contiguous column slice `[a, b)` of every row. -/
def colSlice (m : Mat) (a b : Nat) : Mat := m.map (fun row => (row.drop a).take (b - a))

/-- `v[a : a + w.length] = w`: numpy slice assignment into a flat row
(the shapes always agree at the call sites, as numpy requires). -/
def writeSlice (v : Vec) (a : Nat) (w : Vec) : Vec :=
  v.take a ++ w ++ v.drop (a + w.length)

/-- The state of a constructed `MultiBinGP` object. -/
structure MultiBin (G : Type) where
  kf : Vec
  nk : Nat
  nz : Nat
  coreg : Bool
  gps : List (SkState G)

/-- `MultiBinGP.__init__(params=…, kf=…, powers=…, param_limits=…, coreg=…)`.
The `assert np.shape(powers)[1] % self.nk == 0` is modelled by returning `none`
(an `AssertionError` escapes the constructor) when the divisibility fails. -/
def multiBinInit (C : GPConfig G) (params : Mat) (kf : Vec) (powers param_limits : Mat)
    (coreg : Bool := false) : Option (MultiBin G) :=
  let nk := kf.length
  if numCols powers % nk = 0 then
    let nz := numCols powers / nk
    some { kf := kf, nk := nk, nz := nz, coreg := coreg,
           gps := (List.range nz).map (fun i =>
             (skInit C params (colSlice powers (i * nk) ((i + 1) * nk)) param_limits coreg true).1) }
  else none

/-- The per-bin parameter array of `MultiBinGP.predict`:
`zparams = np.array(params)` (a fresh copy of the caller's array — hence pure
values here) followed by `zparams[0][0] *= tau0_factors[i]` when
`tau0_factors is not None`.  Out-of-range `tau0_factors[i]` raises in Python
and is modelled by the neutral factor `1`; theorems assume enough factors. -/
def zparamsFor (params : Mat) (tau0_factors : Option Vec) (i : Nat) : Mat :=
  match tau0_factors with
  | none => params
  | some t => params.set 0 ((params.getD 0 []).set 0
      ((params.getD 0 []).getD 0 0 * t.getD i 1))

/-- `MultiBinGP.predict(params, tau0_factors)`: allocates zero rows for the
means and standard deviations (`np.zeros`), then for each per-redshift emulator
writes its prediction into the column slice `[i*nk, (i+1)*nk)`.  Row 0 of each
output is modelled (`means` has one row; `std[:, slice] = s` sets every row of
the block to the same columns, so row 0 carries the content the claims are
about). -/
def multiBinPredict (C : GPConfig G) (M : MultiBin G) (params : Mat)
    (tau0_factors : Option Vec := none) : Vec × Vec :=
  let means0 : Vec := List.replicate (M.nk * M.nz) 0
  let std0 : Vec := List.replicate (M.nk * M.nz) 0
  M.gps.enum.foldl (fun acc p =>
    let zparams := zparamsFor params tau0_factors p.1
    let ms := skPredict C p.2.sdscale p.2.param_limits p.2.interp zparams
    (writeSlice acc.1 (p.1 * M.nk) (ms.1.headD []),
     writeSlice acc.2 (p.1 * M.nk) (ms.2.headD [])))
    (means0, std0)

/-! The temperature–density fitter, `lyaemu/tempdens.py`. -/

/-- Result tuple of `scipy.optimize.leastsq(..., full_output=True)`: the code
reads `res[0]` (the fitted parameter vector), `res[3]` (the message) and
`res[-1]` (the integer status flag `ier`). -/
structure LeastsqResult where
  x : List ℚ
  mesg : String
  ier : Int
deriving Repr, DecidableEq

/-- External functions used by `fit_temp_dens_relation`, abstracted:
`scipy.optimize.leastsq`, `np.log10`, and the float power `10 ** x`. -/
structure TDConfig where
  leastsq : (List ℚ → Vec) → List ℚ → LeastsqResult
  log10 : ℚ → ℚ
  pow10 : ℚ → ℚ

/-- The index filter of `fit_temp_dens_relation`:
`np.where((logoverden < 1.0) * (logT < 5.0))` applied to both arrays, i.e. the
pairs (overdensity, temperature) kept for the fit. -/
def tdPoints (logoverden logT : Vec) : List (ℚ × ℚ) :=
  (logoverden.zip logT).filter (fun p => decide (p.1 < 1) && decide (p.2 < 5))

/-- The residual function `min_func(param)` of `fit_temp_dens_relation`:
`logtfor - (logT0 + gammam1 * logofor)` over the filtered points. -/
def tdMinFunc (logoverden logT : Vec) (param : List ℚ) : Vec :=
  let logT0 := param.getD 0 0
  let gammam1 := param.getD 1 0
  (tdPoints logoverden logT).map (fun p => p.2 - (logT0 + gammam1 * p.1))

/-- `fit_temp_dens_relation(logoverden, logT)`: least-squares fit of a power
law to the filtered points, started at `(np.log10(1e4), 0.5)`; returns
`(10**logT0, gammam1 + 1)` together with the printed messages. -/
def fitTempDensRelation (C : TDConfig) (logoverden logT : Vec) :
    (ℚ × ℚ) × List String :=
  let res := C.leastsq (tdMinFunc logoverden logT) [C.log10 10000, 1/2]
  let params := res.x
  let log := if res.ier ≤ 0 then [res.mesg] else []
  ((C.pow10 (params.getD 0 0), params.getD 1 0 + 1), log)

/-! The CLI entry point, `main.py`. -/

/-- The call `plot_test_interpolate_kf_bin_loop(emudir, testdir,
savedir=savedir, plotname="_Two_loop", kf_bin_nums=np.arange(2))` that
`main.py` dispatches to (the routine itself lives in a plotting module outside
the sources; only the dispatch is modelled). -/
structure PlotCall where
  emudir : String
  testdir : String
  savedir : String
  plotname : String
  kf_bin_nums : List Nat
deriving Repr, DecidableEq

/-- `sys.argv[i]`: raises `IndexError` when the argument list is too short. -/
def argvGet (argv : List String) (i : Nat) : Except String String :=
  if h : i < argv.length then .ok (argv.get ⟨i, h⟩)
  else .error "IndexError: list index out of range"

/-- The `__main__` block of `main.py`: reads `sys.argv[1]` and `sys.argv[2]`,
builds the test and emulator directories under the simulation root, and
dispatches to the plotting routine.  An uncaught `IndexError` is modelled as
`Except.error`. -/
def mainScript (argv : List String) : Except String PlotCall := do
  let sim_rootdir ← argvGet argv 1
  let savedir ← argvGet argv 2
  let testdir := sim_rootdir ++ "/Lya_Boss/hires_knots_test"
  let emudir := sim_rootdir ++ "/Lya_Boss/hires_knots"
  .ok { emudir := emudir, testdir := testdir, savedir := savedir,
        plotname := "_Two_loop", kf_bin_nums := List.range 2 }

/-! Helper lemmas. -/

lemma boolMask_cons (b : Bool) (mask : List Bool) (a : α) (l : List α) :
    boolMask (b :: mask) (a :: l) = (if b then [a] else []) ++ boolMask mask l := by
  cases b <;> simp [boolMask]

lemma boolMask_of_forall_true (l : List α) (f : Nat → Bool) (h : ∀ i, f i = true) :
    boolMask ((List.range l.length).map f) l = l := by
  induction l generalizing f with
  | nil => rfl
  | cons a t ih =>
    rw [List.length_cons, List.range_succ_eq_map, List.map_cons, List.map_map,
      boolMask_cons, h 0]
    rw [ih (f ∘ Nat.succ) (fun i => h (i + 1))]
    rfl

/-- Selecting with the boolean mask `np.arange(n) != ex` removes exactly the
row at index `ex`. -/
lemma boolMask_neMask (l : List α) (ex : Nat) :
    boolMask (neMask l.length ex) l = l.eraseIdx ex := by
  induction l generalizing ex with
  | nil => rfl
  | cons a t ih =>
    rw [neMask, List.length_cons, List.range_succ_eq_map, List.map_cons, List.map_map,
      boolMask_cons]
    cases ex with
    | zero =>
      rw [show (decide ((0:Nat) ≠ 0)) = false from rfl]
      rw [boolMask_of_forall_true t ((fun i => decide (i ≠ 0)) ∘ Nat.succ)
        (fun i => by simp)]
      rfl
    | succ k =>
      rw [show (decide ((0:Nat) ≠ k + 1)) = true from by simp]
      have hmap : (List.range t.length).map ((fun i => decide (i ≠ k + 1)) ∘ Nat.succ)
          = (List.range t.length).map (fun i => decide (i ≠ k)) := by
        refine List.map_congr_left (fun i _ => ?_)
        simp [Function.comp_def]
      rw [hmap, ← neMask, ih k]
      rfl

lemma map_getD_range (l : List α) (d : α) :
    (List.range l.length).map (fun i => l.getD i d) = l := by
  induction l with
  | nil => rfl
  | cons a t ih =>
    rw [List.length_cons, List.range_succ_eq_map, List.map_cons, List.map_map]
    simp only [Function.comp_def, List.getD_cons_zero, List.getD_cons_succ]
    rw [ih]

lemma map_getD_argsort (xs : Vec) :
    (argsort xs).map (fun i => xs.getD i 0) = npSort xs := by
  haveI h1 : IsTotal ℕ (fun i j => xs.getD i 0 ≤ xs.getD j 0) := ⟨fun a b => le_total _ _⟩
  haveI h2 : IsTrans ℕ (fun i j => xs.getD i 0 ≤ xs.getD j 0) :=
    ⟨fun a b c hab hbc => le_trans hab hbc⟩
  apply List.eq_of_perm_of_sorted (r := (· ≤ ·))
  · refine ((List.perm_insertionSort _ _).map _).trans ?_
    rw [map_getD_range]
    exact (List.perm_insertionSort _ _).symm
  · exact List.Pairwise.map _ (fun a b h => h) (List.sorted_insertionSort _ _)
  · exact List.sorted_insertionSort _ _

lemma argsort_length (xs : Vec) : (argsort xs).length = xs.length := by
  rw [argsort, (List.perm_insertionSort _ _).length_eq, List.length_range]

lemma npSort_length (xs : Vec) : (npSort xs).length = xs.length :=
  (List.perm_insertionSort _ _).length_eq

lemma argsort_getD_lt (xs : Vec) (k : Nat) (hk : k < xs.length) :
    (argsort xs).getD k 0 < xs.length := by
  have hmem : (argsort xs).getD k 0 ∈ argsort xs := by
    rw [List.getD_eq_getElem _ _ (by rw [argsort_length]; exact hk)]
    exact List.getElem_mem _
  have := ((List.perm_insertionSort _ _).mem_iff).mp hmem
  exact List.mem_range.mp this

lemma zipWith_getD (f : ℚ → ℚ → ℚ) : ∀ (a b : Vec) (j : Nat), j < a.length → j < b.length →
    (List.zipWith f a b).getD j 0 = f (a.getD j 0) (b.getD j 0)
  | [], _, _, h, _ => absurd h (by simp)
  | _ :: _, [], _, _, h => absurd h (by simp)
  | x :: xs, y :: ys, 0, _, _ => by simp
  | x :: xs, y :: ys, j + 1, h1, h2 => by
    simp only [List.zipWith_cons_cons, List.getD_cons_succ]
    exact zipWith_getD f xs ys j (by simpa using h1) (by simpa using h2)

lemma map_getD_lt (f : α → β) (l : List α) (i : Nat) (h : i < l.length) (da : α) (db : β) :
    (l.map f).getD i db = f (l.getD i da) := by
  rw [List.getD_eq_getElem _ _ (by simpa using h), List.getD_eq_getElem _ _ h, List.getElem_map]

lemma foldl_prod_split (f : β → γ → β) (g : δ → γ → δ) :
    ∀ (l : List γ) (a : β) (b : δ),
    l.foldl (fun acc p => (f acc.1 p, g acc.2 p)) (a, b) = (l.foldl f a, l.foldl g b)
  | [], _, _ => rfl
  | x :: t, a, b => by
    simp only [List.foldl_cons]
    exact foldl_prod_split f g t (f a x) (g b x)

lemma drop_replicate (a : α) : ∀ (n m : Nat), (List.replicate m a).drop n = List.replicate (m - n) a
  | 0, m => by simp
  | n + 1, 0 => by simp
  | n + 1, m + 1 => by
    simp only [List.replicate_succ, List.drop_succ_cons, Nat.succ_sub_succ]
    exact drop_replicate a n m

/-- Writing rows of length `nk` one after another into a zero-initialised
buffer yields their concatenation. -/
lemma foldl_writeSlice (nk : Nat) (w : Nat × σ → Vec) :
    ∀ (l : List σ) (j0 : Nat) (pre : Vec),
    (∀ p ∈ List.enumFrom j0 l, (w p).length = nk) → pre.length = j0 * nk →
    (List.enumFrom j0 l).foldl (fun acc p => writeSlice acc (p.1 * nk) (w p))
        (pre ++ List.replicate (nk * l.length) 0)
      = pre ++ ((List.enumFrom j0 l).map w).flatten
  | [], j0, pre, _, _ => by simp
  | a :: t, j0, pre, hw, hpre => by
    have hwa : (w (j0, a)).length = nk := hw _ (by simp)
    have hstep : writeSlice (pre ++ List.replicate (nk * (a :: t).length) 0) (j0 * nk) (w (j0, a))
        = (pre ++ w (j0, a)) ++ List.replicate (nk * t.length) 0 := by
      rw [writeSlice, List.take_left' hpre, hwa]
      have hdrop : (pre ++ List.replicate (nk * (a :: t).length) 0).drop (j0 * nk + nk)
          = List.replicate (nk * t.length) 0 := by
        rw [← List.drop_drop, List.drop_left' hpre, drop_replicate]
        rw [List.length_cons, Nat.mul_succ, Nat.add_sub_cancel]
      rw [hdrop, List.append_assoc]
    rw [List.enumFrom_cons, List.foldl_cons, hstep,
      foldl_writeSlice nk w t (j0 + 1) (pre ++ w (j0, a))
        (fun p hp => hw p (by simp [hp]))
        (by rw [List.length_append, hwa, hpre]; ring),
      List.map_cons, List.flatten_cons]
    simp [List.append_assoc]

lemma flatten_slice (nk : Nat) :
    ∀ (ws : Mat), (∀ v ∈ ws, v.length = nk) → ∀ (i : Nat), i < ws.length →
    ((ws.flatten.drop (i * nk)).take nk) = ws.getD i []
  | [], _, i, hi => absurd hi (by simp)
  | v :: t, hw, 0, _ => by
    have hv : v.length = nk := hw v (by simp)
    simp only [List.flatten_cons, Nat.zero_mul, List.drop_zero, List.getD_cons_zero]
    rw [List.take_left' hv]
  | v :: t, hw, i + 1, hi => by
    have hv : v.length = nk := hw v (by simp)
    simp only [List.flatten_cons, List.getD_cons_succ]
    rw [show (i + 1) * nk = v.length + i * nk by rw [hv]; ring, ← List.drop_drop,
      List.drop_left]
    exact flatten_slice nk t (fun u hu => hw u (by simp [hu])) i (by simpa using hi)

lemma enumFrom_map_pair (w : Nat × σ → β) :
    ∀ (l : List σ) (j : Nat),
    (List.enumFrom j l).map (fun p => (p.1, w p)) = List.enumFrom j ((List.enumFrom j l).map w)
  | [], _ => rfl
  | a :: t, j => by
    simp only [List.enumFrom_cons, List.map_cons]
    rw [enumFrom_map_pair w t (j + 1)]

/-! Concrete instantiations of the abstract external libraries, used to
evaluate the theorems at concrete inputs. -/

def unitCfg : GPConfig Unit where
  mapToUnitCube := fun pp _ => pp
  fitGP := fun _ _ _ => ()
  gpPredict := fun _ m => (m, m)
  erf := fun _ => 0
  sqrt := fun _ => 1
  minimize := fun _ x0 => { x := x0, success := true, message := "" }

def failCfg : GPConfig Unit :=
  { unitCfg with minimize := fun _ x0 =>
      { x := x0, success := false, message := "Desired error not necessarily achieved." } }

def tdCfg : TDConfig where
  leastsq := fun _ x0 => { x := x0, mesg := "", ier := 1 }
  log10 := fun _ => 4
  pow10 := fun _ => 10000

def tdFailCfg : TDConfig :=
  { tdCfg with leastsq := fun _ x0 =>
      { x := x0, mesg := "improper input parameters", ier := 0 } }

/-! The claims. -/

/-- C1: leave-one-out cross-validation excludes exactly one point per fold:
for every training set of `npowers` points and every `ex < npowers`,
`_get_cv_one` builds the interpolator from exactly the `npowers - 1` rows of
`params` and `powers` whose index differs from `ex`, and evaluates the
prediction error at the excluded point `params[ex]` against the exact value
`powers[ex]`. -/
theorem cvOne_excludes_exactly_one {G : Type} (C : GPConfig G) (pl : Mat) (coreg : Bool)
    (sd : ℚ) (ex : Nat) (params powers : Mat)
    (hex : ex < powers.length) (hlen : params.length = powers.length) :
    getCvOne C pl coreg sd ex params powers
      = (getInterp C pl coreg (params.eraseIdx ex) (powers.eraseIdx ex),
         (getPredictError C sd pl
            (getInterp C pl coreg (params.eraseIdx ex) (powers.eraseIdx ex))
            [params.getD ex []] (powers.getD ex [])).getD 0 [])
    ∧ (powers.eraseIdx ex).length = powers.length - 1
    ∧ (params.eraseIdx ex).length = powers.length - 1 := by
  have hp : boolMask (neMask powers.length ex) powers = powers.eraseIdx ex :=
    boolMask_neMask powers ex
  have hq : boolMask (neMask powers.length ex) params = params.eraseIdx ex := by
    rw [← hlen]; exact boolMask_neMask params ex
  refine ⟨?_, ?_, ?_⟩
  · simp only [getCvOne, hp, hq]
  · exact List.length_eraseIdx_of_lt hex
  · rw [List.length_eraseIdx_of_lt (by rw [hlen]; exact hex), hlen]

/-- Witness for `cvOne_excludes_exactly_one` at a concrete input. -/
theorem cvOne_excludes_exactly_one_witness :
    (1 < ([[(1:ℚ)], [2], [3]] : Mat).length
      ∧ ([[(0:ℚ)], [1], [2]] : Mat).length = ([[(1:ℚ)], [2], [3]] : Mat).length)
    ∧ (getCvOne unitCfg [[0, 1]] false 1 1 [[0], [1], [2]] [[1], [2], [3]]).1
        = getInterp unitCfg [[0, 1]] false [[0], [2]] [[1], [3]]
    ∧ (([[(1:ℚ)], [2], [3]] : Mat).eraseIdx 1).length = 3 - 1 := by
  have h := cvOne_excludes_exactly_one unitCfg [[0, 1]] false 1 1
    [[0], [1], [2]] [[1], [2], [3]] (by decide) rfl
  exact ⟨⟨by decide, rfl⟩, congrArg Prod.fst h.1, h.2.1⟩

/-- C2: after `SkLearnGP.__init__` returns, the GP model and its normalisation
state (`gp`, `scalefactors`, `paramzero`) are those obtained by training on the
full `params`/`powers` set — every leave-one-out fold during `cv_rescale`
overwrites them with a fold-trained model, but `__init__` always calls
`_get_interp` on the complete data afterwards. -/
theorem init_final_interp_full_data {G : Type} (C : GPConfig G) (params powers pl : Mat)
    (coreg cv : Bool) (hlen : params.length = powers.length) :
    (skInit C params powers pl coreg cv).1.interp = getInterp C pl coreg params powers
    ∧ ∀ ex, ex < powers.length →
        (getCvOne C pl coreg 1 ex params powers).1
          = getInterp C pl coreg (params.eraseIdx ex) (powers.eraseIdx ex) := by
  constructor
  · rfl
  · intro ex _
    have hp := boolMask_neMask powers ex
    have hq : boolMask (neMask powers.length ex) params = params.eraseIdx ex := by
      rw [← hlen]; exact boolMask_neMask params ex
    simp only [getCvOne, hp, hq]

/-- Witness for `init_final_interp_full_data` at a concrete input. -/
theorem init_final_interp_full_data_witness :
    ([[(0:ℚ)], [1]] : Mat).length = ([[(1:ℚ), 2], [3, 4]] : Mat).length
    ∧ (skInit unitCfg [[0], [1]] [[1, 2], [3, 4]] [[0, 1]] false true).1.interp
        = getInterp unitCfg [[0, 1]] false [[0], [1]] [[1, 2], [3, 4]]
    ∧ (getCvOne unitCfg [[0, 1]] false 1 0 [[0], [1]] [[1, 2], [3, 4]]).1
        = getInterp unitCfg [[0, 1]] false [[1]] [[3, 4]] := by
  have h := init_final_interp_full_data unitCfg [[0], [1]] [[1, 2], [3, 4]] [[0, 1]]
    false true rfl
  exact ⟨rfl, h.1, h.2 0 (by decide)⟩

/-- C5: normalisation and denormalisation are inverse transformations: for a
flux row `f` and scale factors `s` with all entries nonzero,
`((f/s - 1) + 1) * s = f` elementwise. -/
theorem normalize_denormalize_inverse (f s : Vec) (hlen : f.length = s.length)
    (hs : ∀ x ∈ s, x ≠ 0) :
    denormalizeRow (normalizeRow f s) s = f := by
  induction f generalizing s with
  | nil =>
    cases s with
    | nil => rfl
    | cons b u => simp at hlen
  | cons a t ih =>
    cases s with
    | nil => simp at hlen
    | cons b u =>
      have hb : b ≠ 0 := hs b (by simp)
      show ((a / b - 1) + 1) * b :: denormalizeRow (normalizeRow t u) u = a :: t
      rw [sub_add_cancel, div_mul_cancel₀ a hb,
        ih u (by simpa using hlen) (fun x hx => hs x (by simp [hx]))]

/-- Witness for `normalize_denormalize_inverse` at a concrete input. -/
theorem normalize_denormalize_inverse_witness :
    ([(3:ℚ), 4].length = [(2:ℚ), 5].length ∧ ∀ x ∈ [(2:ℚ), 5], x ≠ 0)
    ∧ denormalizeRow (normalizeRow [(3:ℚ), 4] [2, 5]) [2, 5] = [3, 4] :=
  ⟨⟨rfl, by decide⟩,
   normalize_denormalize_inverse [3, 4] [2, 5] rfl (by decide)⟩

/-- C9: the CLI entry point takes exactly two positional arguments (simulation
root directory, save directory) and dispatches to the plotting routine with
directories built from them; with fewer than two arguments it terminates with
an uncaught `IndexError`. -/
theorem mainScript_two_args (argv : List String) :
    (3 ≤ argv.length →
      mainScript argv = Except.ok
        { emudir := argv.getD 1 "" ++ "/Lya_Boss/hires_knots",
          testdir := argv.getD 1 "" ++ "/Lya_Boss/hires_knots_test",
          savedir := argv.getD 2 "",
          plotname := "_Two_loop", kf_bin_nums := List.range 2 })
    ∧ (argv.length < 3 →
      mainScript argv = Except.error "IndexError: list index out of range") := by
  constructor
  · intro h
    have h1 : 1 < argv.length := by omega
    have h2 : 2 < argv.length := by omega
    simp only [mainScript, argvGet, dif_pos h1, dif_pos h2]
    rw [List.getD_eq_getElem _ _ h1, List.getD_eq_getElem _ _ h2]
    rfl
  · intro h
    rcases Nat.lt_or_ge 1 argv.length with h1 | h1
    · have h2 : ¬ 2 < argv.length := by omega
      simp only [mainScript, argvGet, dif_pos h1, dif_neg h2]
      rfl
    · have h1' : ¬ 1 < argv.length := by omega
      simp only [mainScript, argvGet, dif_neg h1']
      rfl

/-- Witness for `mainScript_two_args` at concrete inputs. -/
theorem mainScript_two_args_witness :
    (3 ≤ (["main.py", "root", "save"] : List String).length
      ∧ mainScript ["main.py", "root", "save"] = Except.ok
          { emudir := "root/Lya_Boss/hires_knots",
            testdir := "root/Lya_Boss/hires_knots_test",
            savedir := "save",
            plotname := "_Two_loop", kf_bin_nums := List.range 2 })
    ∧ ((["main.py"] : List String).length < 3
      ∧ mainScript ["main.py"] = Except.error "IndexError: list index out of range") :=
  ⟨⟨by decide, (mainScript_two_args ["main.py", "root", "save"]).1 (by decide)⟩,
   ⟨by decide, (mainScript_two_args ["main.py"]).2 (by decide)⟩⟩

/-- Sum of squared residuals (what a least-squares routine minimises). -/
def sumSq (v : Vec) : ℚ := (v.map (fun x => x ^ 2)).sum

lemma sumSq_nonneg (v : Vec) : 0 ≤ sumSq v := by
  refine List.sum_nonneg (fun x hx => ?_)
  rcases List.mem_map.mp hx with ⟨y, _, rfl⟩
  positivity

/-- C7: numerical optimizer non-convergence is logged via a message print, not
handled: when `scipy.optimize.minimize` reports failure in `cv_rescale`
(`res.success` false) the message is printed and `res.x` is still returned as
the rescale factor without raising, and when `leastsq` in
`fit_temp_dens_relation` reports failure (status flag `<= 0`) the message is
printed and the fitted parameters are still returned. -/
theorem optimizer_failure_printed {G : Type} (C : GPConfig G) (pl : Mat) (coreg : Bool)
    (sd : ℚ) (params powers : Mat) (TD : TDConfig) (lo lt : Vec)
    (hcv : (cvMinimizeResult C pl coreg sd params powers).success = false)
    (hld : (TD.leastsq (tdMinFunc lo lt) [TD.log10 10000, 1/2]).ier ≤ 0) :
    cvRescale C pl coreg sd params powers
      = (((cvFolds C pl coreg sd params powers).map Prod.fst).getLast?,
         (cvMinimizeResult C pl coreg sd params powers).x,
         [(cvMinimizeResult C pl coreg sd params powers).message])
    ∧ fitTempDensRelation TD lo lt
      = ((TD.pow10 ((TD.leastsq (tdMinFunc lo lt) [TD.log10 10000, 1/2]).x.getD 0 0),
          (TD.leastsq (tdMinFunc lo lt) [TD.log10 10000, 1/2]).x.getD 1 0 + 1),
         [(TD.leastsq (tdMinFunc lo lt) [TD.log10 10000, 1/2]).mesg]) := by
  constructor
  · simp only [cvRescale, hcv]
    rfl
  · simp only [fitTempDensRelation]
    rw [if_pos hld]

/-- Witness for `optimizer_failure_printed` at a concrete input. -/
theorem optimizer_failure_printed_witness :
    ((cvMinimizeResult failCfg [] false 1 [] []).success = false
      ∧ (tdFailCfg.leastsq (tdMinFunc [] []) [tdFailCfg.log10 10000, 1/2]).ier ≤ 0)
    ∧ cvRescale failCfg [] false 1 [] []
      = (((cvFolds failCfg [] false 1 [] []).map Prod.fst).getLast?, 1,
         ["Desired error not necessarily achieved."])
    ∧ fitTempDensRelation tdFailCfg [] []
      = ((tdFailCfg.pow10 4, 1/2 + 1), ["improper input parameters"]) := by
  have h := optimizer_failure_printed failCfg [] false 1 [] [] tdFailCfg [] []
    (by decide) (by decide)
  exact ⟨⟨by decide, by decide⟩, h.1, h.2⟩

/-- C8: `fit_temp_dens_relation` performs a power-law least-squares fit
restricted to the points with `logoverden < 1.0` and `logT < 5.0`: the residual
function handed to `leastsq` is `logT - (logT0 + gammam1 * logoverden)` over
exactly those points, the starting point is `(log10(1e4), 0.5)`, and the
returned pair is `(10**logT0, gammam1 + 1)`; when the external `leastsq`
returns a least-squares minimiser, the fitted parameters minimise the summed
squared residuals over the restricted points. -/
theorem tempdens_fit_restricted (TD : TDConfig) (lo lt : Vec) :
    tdPoints lo lt = (lo.zip lt).filter (fun p => decide (p.1 < 1 ∧ p.2 < 5))
    ∧ (∀ param, tdMinFunc lo lt param
        = (tdPoints lo lt).map (fun p => p.2 - (param.getD 0 0 + param.getD 1 0 * p.1)))
    ∧ (fitTempDensRelation TD lo lt).1
      = (TD.pow10 ((TD.leastsq (tdMinFunc lo lt) [TD.log10 10000, 1/2]).x.getD 0 0),
         (TD.leastsq (tdMinFunc lo lt) [TD.log10 10000, 1/2]).x.getD 1 0 + 1)
    ∧ ((∀ q, sumSq (tdMinFunc lo lt ((TD.leastsq (tdMinFunc lo lt) [TD.log10 10000, 1/2]).x))
            ≤ sumSq (tdMinFunc lo lt q)) →
       ∀ logT0 gammam1 : ℚ,
         sumSq (tdMinFunc lo lt ((TD.leastsq (tdMinFunc lo lt) [TD.log10 10000, 1/2]).x))
           ≤ sumSq ((tdPoints lo lt).map (fun p => p.2 - (logT0 + gammam1 * p.1)))) := by
  refine ⟨by simp [tdPoints], fun param => rfl, rfl,
    fun hmin logT0 gammam1 => ?_⟩
  have h := hmin [logT0, gammam1]
  simpa [tdMinFunc] using h

/-- Witness for `tempdens_fit_restricted` at a concrete input. -/
theorem tempdens_fit_restricted_witness :
    (∀ q, sumSq (tdMinFunc [(0:ℚ)] [4]
            ((tdCfg.leastsq (tdMinFunc [(0:ℚ)] [4]) [tdCfg.log10 10000, 1/2]).x))
          ≤ sumSq (tdMinFunc [(0:ℚ)] [4] q))
    ∧ (fitTempDensRelation tdCfg [(0:ℚ)] [4]).1
      = (tdCfg.pow10 ((tdCfg.leastsq (tdMinFunc [(0:ℚ)] [4]) [tdCfg.log10 10000, 1/2]).x.getD 0 0),
         (tdCfg.leastsq (tdMinFunc [(0:ℚ)] [4]) [tdCfg.log10 10000, 1/2]).x.getD 1 0 + 1)
    ∧ sumSq (tdMinFunc [(0:ℚ)] [4]
        ((tdCfg.leastsq (tdMinFunc [(0:ℚ)] [4]) [tdCfg.log10 10000, 1/2]).x))
      ≤ sumSq ((tdPoints [(0:ℚ)] [4]).map (fun p => p.2 - (0 + 0 * p.1))) := by
  have hmin : ∀ q, sumSq (tdMinFunc [(0:ℚ)] [4]
      ((tdCfg.leastsq (tdMinFunc [(0:ℚ)] [4]) [tdCfg.log10 10000, 1/2]).x))
      ≤ sumSq (tdMinFunc [(0:ℚ)] [4] q) := by
    intro q
    have h0 : sumSq (tdMinFunc [(0:ℚ)] [4]
        ((tdCfg.leastsq (tdMinFunc [(0:ℚ)] [4]) [tdCfg.log10 10000, 1/2]).x)) = 0 := by
      norm_num [sumSq, tdMinFunc, tdPoints, tdCfg]
    rw [h0]
    exact sumSq_nonneg _
  have h := tempdens_fit_restricted tdCfg [(0:ℚ)] [4]
  exact ⟨hmin, h.2.2.1, h.2.2.2 hmin 0 0⟩

lemma normalizeRow_self (s : Vec) (hs : ∀ x ∈ s, x ≠ 0) :
    normalizeRow s s = List.replicate s.length 0 := by
  induction s with
  | nil => rfl
  | cons a u ih =>
    show (a / a - 1) :: normalizeRow u u = 0 :: List.replicate u.length 0
    rw [div_self (hs a (by simp)), sub_self,
      ih (fun x hx => hs x (by simp [hx]))]

/-- C3: the error-rescaling factor comes from a Gaussian fit to the cumulative
error distribution: `cv_rescale` ravels and sorts the per-fold prediction
errors (`cvScales` is ascending and a permutation of the flattened fold
errors), forms the empirical cumulative distribution `arange(n)/n`, and
returns `res.x` of `minimize(normal, 1)`; whenever the external minimiser
returns a global minimiser of `normal`, the returned factor `sdscale`
minimises the summed squared difference between the Gaussian CDF
`0.5*(1+erf(scales/sqrt(2)/sigma))` and the empirical distribution.  `predict`
then returns the standard deviation `sdscale * sqrt(var) * scalefactors`
elementwise. -/
theorem cv_gaussian_rescale {G : Type} (C : GPConfig G) (pl : Mat) (coreg : Bool)
    (sd : ℚ) (params powers : Mat) :
    ((cvRescale C pl coreg sd params powers).2.1
        = (cvMinimizeResult C pl coreg sd params powers).x)
    ∧ List.Sorted (· ≤ ·) (cvScales C pl coreg sd params powers)
    ∧ (cvScales C pl coreg sd params powers).Perm
        (((cvFolds C pl coreg sd params powers).map Prod.snd).flatten)
    ∧ ((∀ σ, normalObjective C (cvScales C pl coreg sd params powers)
              (cumsumOf (cvScales C pl coreg sd params powers))
              ((cvMinimizeResult C pl coreg sd params powers).x)
            ≤ normalObjective C (cvScales C pl coreg sd params powers)
              (cumsumOf (cvScales C pl coreg sd params powers)) σ) →
       ∀ σ, normalObjective C (cvScales C pl coreg sd params powers)
              (cumsumOf (cvScales C pl coreg sd params powers))
              ((cvRescale C pl coreg sd params powers).2.1)
            ≤ normalObjective C (cvScales C pl coreg sd params powers)
              (cumsumOf (cvScales C pl coreg sd params powers)) σ)
    ∧ ∀ (I : Interp G) (ps : Mat) (i j : Nat),
        j < ((C.gpPredict I.gp (ps.map (fun pp => C.mapToUnitCube pp pl))).2.getD i []).length →
        j < I.scalefactors.length →
        (((skPredict C ((cvRescale C pl coreg sd params powers).2.1) pl I ps).2.getD i []).getD j 0)
          = (cvRescale C pl coreg sd params powers).2.1
              * C.sqrt (((C.gpPredict I.gp
                  (ps.map (fun pp => C.mapToUnitCube pp pl))).2.getD i []).getD j 0)
              * I.scalefactors.getD j 0 := by
  refine ⟨rfl, List.sorted_insertionSort _ _, List.perm_insertionSort _ _,
    fun hmin σ => hmin σ, ?_⟩
  intro I ps i j hj1 hj2
  by_cases hi : i < (C.gpPredict I.gp (ps.map (fun pp => C.mapToUnitCube pp pl))).2.length
  · show (((C.gpPredict I.gp (ps.map (fun pp => C.mapToUnitCube pp pl))).2.map
        (fun row => List.zipWith
          (fun v sc => (cvRescale C pl coreg sd params powers).2.1 * C.sqrt v * sc)
          row I.scalefactors)).getD i []).getD j 0 = _
    rw [map_getD_lt _ _ i hi [] [], zipWith_getD _ _ _ j hj1 hj2]
  · exfalso
    rw [List.getD_eq_default _ _ (Nat.le_of_not_lt hi)] at hj1
    simp at hj1

/-- Witness for `cv_gaussian_rescale` at a concrete input. -/
theorem cv_gaussian_rescale_witness :
    (∀ σ, normalObjective unitCfg (cvScales unitCfg [] false 1 [[0]] [[1]])
            (cumsumOf (cvScales unitCfg [] false 1 [[0]] [[1]]))
            ((cvMinimizeResult unitCfg [] false 1 [[0]] [[1]]).x)
          ≤ normalObjective unitCfg (cvScales unitCfg [] false 1 [[0]] [[1]])
            (cumsumOf (cvScales unitCfg [] false 1 [[0]] [[1]])) σ)
    ∧ normalObjective unitCfg (cvScales unitCfg [] false 1 [[0]] [[1]])
        (cumsumOf (cvScales unitCfg [] false 1 [[0]] [[1]]))
        ((cvRescale unitCfg [] false 1 [[0]] [[1]]).2.1)
      ≤ normalObjective unitCfg (cvScales unitCfg [] false 1 [[0]] [[1]])
        (cumsumOf (cvScales unitCfg [] false 1 [[0]] [[1]])) 5
    ∧ (((skPredict unitCfg ((cvRescale unitCfg [] false 1 [[0]] [[1]]).2.1) []
          ⟨(), [2], []⟩ [[1]]).2.getD 0 []).getD 0 0)
      = (cvRescale unitCfg [] false 1 [[0]] [[1]]).2.1 * unitCfg.sqrt 1 * 2 := by
  have hs : cvScales unitCfg [] false 1 [[0]] [[1]] = [] := by decide
  have hmin : ∀ σ, normalObjective unitCfg (cvScales unitCfg [] false 1 [[0]] [[1]])
      (cumsumOf (cvScales unitCfg [] false 1 [[0]] [[1]]))
      ((cvMinimizeResult unitCfg [] false 1 [[0]] [[1]]).x)
      ≤ normalObjective unitCfg (cvScales unitCfg [] false 1 [[0]] [[1]])
        (cumsumOf (cvScales unitCfg [] false 1 [[0]] [[1]])) σ := by
    intro σ
    rw [hs]
    exact le_refl _
  have h := cv_gaussian_rescale unitCfg [] false 1 [[0]] [[1]]
  have hstd := h.2.2.2.2 ⟨(), [2], []⟩ [[1]] 0 0 (by decide) (by decide)
  exact ⟨hmin, h.2.2.2.1 hmin 5, hstd⟩

/-- C4 counterexample: the claim quantifies over every non-empty
`flux_vectors`, but for `[[0]]` the selected median row is `[0]` and its
normalisation `0/0 - 1` is `-1` in the embedding (numpy produces `nan`),
not the all-zero vector. -/
theorem interp_median_zero_row_not_normalized :
    ([[(0:ℚ)]] : Mat) ≠ []
    ∧ (getInterp unitCfg [] false [[0]] [[0]]).scalefactors = [0]
    ∧ normalizeRow (getInterp unitCfg [] false [[0]] [[0]]).scalefactors
        (getInterp unitCfg [] false [[0]] [[0]]).scalefactors
      ≠ List.replicate 1 0 := by
  refine ⟨by simp, by decide, ?_⟩
  show normalizeRow [(0:ℚ)] [0] ≠ List.replicate 1 0
  norm_num [normalizeRow]

/-- C4 (amended): median-based flux normalisation: for every non-empty
`flux_vectors`, `_get_interp` sets `scalefactors` to the row selected by the
median of the row means (its mean is the value at position `n/2` of the sorted
means), sets `paramzero` to the corresponding unit-cube parameter vector, and
normalises every row to `flux_vectors/scalefactors - 1`; provided every entry
of the median row is nonzero, the median row normalises to the all-zero
vector. -/
theorem interp_median_normalization {G : Type} (C : GPConfig G) (pl : Mat)
    (coreg : Bool) (params flux_vectors : Mat)
    (hne : flux_vectors ≠ []) (hlen : params.length = flux_vectors.length) :
    ∃ medind : Nat, medind < flux_vectors.length
      ∧ (getInterp C pl coreg params flux_vectors).scalefactors
          = flux_vectors.getD medind []
      ∧ rowMean (flux_vectors.getD medind [])
          = (npSort (flux_vectors.map rowMean)).getD (flux_vectors.length / 2) 0
      ∧ (getInterp C pl coreg params flux_vectors).paramzero
          = C.mapToUnitCube (params.getD medind []) pl
      ∧ (getInterp C pl coreg params flux_vectors).gp
          = C.fitGP coreg (params.map (fun pp => C.mapToUnitCube pp pl))
              (flux_vectors.map (fun row => normalizeRow row (flux_vectors.getD medind [])))
      ∧ ((∀ x ∈ flux_vectors.getD medind [], x ≠ 0) →
          normalizeRow (flux_vectors.getD medind []) (flux_vectors.getD medind [])
            = List.replicate (flux_vectors.getD medind []).length 0) := by
  have hn : 0 < flux_vectors.length := List.length_pos.mpr hne
  have hms : (flux_vectors.map rowMean).length = flux_vectors.length :=
    List.length_map _ _
  have hhalf : flux_vectors.length / 2 < (flux_vectors.map rowMean).length := by
    rw [hms]; exact Nat.div_lt_self hn (by norm_num)
  refine ⟨(argsort (flux_vectors.map rowMean)).getD (flux_vectors.length / 2) 0,
    ?_, rfl, ?_, ?_, rfl, fun hnz => normalizeRow_self _ hnz⟩
  · have := argsort_getD_lt (flux_vectors.map rowMean) (flux_vectors.length / 2)
      (by rw [hms] at hhalf ⊢; exact hhalf)
    rw [hms] at this
    exact this
  · have hm : (argsort (flux_vectors.map rowMean)).getD (flux_vectors.length / 2) 0
        < flux_vectors.length := by
      have := argsort_getD_lt (flux_vectors.map rowMean) (flux_vectors.length / 2)
        (by rw [hms] at hhalf ⊢; exact hhalf)
      rw [hms] at this
      exact this
    have h1 : rowMean (flux_vectors.getD
          ((argsort (flux_vectors.map rowMean)).getD (flux_vectors.length / 2) 0) [])
        = (flux_vectors.map rowMean).getD
          ((argsort (flux_vectors.map rowMean)).getD (flux_vectors.length / 2) 0) 0 :=
      (map_getD_lt rowMean flux_vectors _ hm [] 0).symm
    have hlt : flux_vectors.length / 2 < (argsort (flux_vectors.map rowMean)).length := by
      rw [argsort_length, hms]
      exact Nat.div_lt_self hn (by norm_num)
    have h2 : ((argsort (flux_vectors.map rowMean)).map
          (fun i => (flux_vectors.map rowMean).getD i 0)).getD (flux_vectors.length / 2) 0
        = (flux_vectors.map rowMean).getD
          ((argsort (flux_vectors.map rowMean)).getD (flux_vectors.length / 2) 0) 0 :=
      map_getD_lt _ _ _ hlt 0 0
    rw [h1, ← h2, map_getD_argsort]
  · have hm : (argsort (flux_vectors.map rowMean)).getD (flux_vectors.length / 2) 0
        < params.length := by
      rw [hlen]
      have := argsort_getD_lt (flux_vectors.map rowMean) (flux_vectors.length / 2)
        (by rw [hms] at hhalf ⊢; exact hhalf)
      rw [hms] at this
      exact this
    exact map_getD_lt _ params _ hm [] []

/-- Witness for `interp_median_normalization` at a concrete input. -/
theorem interp_median_normalization_witness :
    (([[(1:ℚ), 2], [3, 4]] : Mat) ≠ []
      ∧ ([[(0:ℚ)], [1]] : Mat).length = ([[(1:ℚ), 2], [3, 4]] : Mat).length)
    ∧ ∃ medind : Nat, medind < 2
      ∧ (getInterp unitCfg [] false [[0], [1]] [[1, 2], [3, 4]]).scalefactors
          = ([[(1:ℚ), 2], [3, 4]] : Mat).getD medind []
      ∧ normalizeRow (([[(1:ℚ), 2], [3, 4]] : Mat).getD medind [])
          (([[(1:ℚ), 2], [3, 4]] : Mat).getD medind [])
          = List.replicate (([[(1:ℚ), 2], [3, 4]] : Mat).getD medind []).length 0 := by
  obtain ⟨m, hm, hsf, hmean, hpz, hgp, hz⟩ :=
    interp_median_normalization unitCfg [] false [[0], [1]] [[1, 2], [3, 4]]
      (by simp) rfl
  refine ⟨⟨by simp, rfl⟩, m, hm, hsf, hz ?_⟩
  match m, hm with
  | 0, _ => decide
  | 1, _ => decide

/-- The means row produced by `MultiBinGP.predict` is the concatenation of the
per-redshift emulator means, in bin order: each iteration's input is derived
from the original `params` (the `np.array` copy), never from a previous
iteration's scaled copy. -/
lemma multiBinPredict_means {G : Type} (C : GPConfig G) (M : MultiBin G) (params : Mat)
    (tau0 : Option Vec)
    (hnz : M.gps.length = M.nz)
    (hw : ∀ p ∈ M.gps.enum,
      ((skPredict C p.2.sdscale p.2.param_limits p.2.interp
          (zparamsFor params tau0 p.1)).1.headD []).length = M.nk) :
    (multiBinPredict C M params tau0).1
      = (M.gps.enum.map (fun p =>
          (skPredict C p.2.sdscale p.2.param_limits p.2.interp
            (zparamsFor params tau0 p.1)).1.headD [])).flatten := by
  have key : multiBinPredict C M params tau0
      = (M.gps.enum.foldl (fun acc p => writeSlice acc (p.1 * M.nk)
            ((skPredict C p.2.sdscale p.2.param_limits p.2.interp
              (zparamsFor params tau0 p.1)).1.headD []))
          (List.replicate (M.nk * M.nz) 0),
         M.gps.enum.foldl (fun acc p => writeSlice acc (p.1 * M.nk)
            ((skPredict C p.2.sdscale p.2.param_limits p.2.interp
              (zparamsFor params tau0 p.1)).2.headD []))
          (List.replicate (M.nk * M.nz) 0)) := by
    exact foldl_prod_split
      (fun acc p => writeSlice acc (p.1 * M.nk)
        ((skPredict C p.2.sdscale p.2.param_limits p.2.interp
          (zparamsFor params tau0 p.1)).1.headD []))
      (fun acc p => writeSlice acc (p.1 * M.nk)
        ((skPredict C p.2.sdscale p.2.param_limits p.2.interp
          (zparamsFor params tau0 p.1)).2.headD []))
      M.gps.enum (List.replicate (M.nk * M.nz) 0) (List.replicate (M.nk * M.nz) 0)
  rw [key]
  have h0 : (List.replicate (M.nk * M.nz) (0:ℚ))
      = [] ++ List.replicate (M.nk * M.gps.length) 0 := by rw [hnz]; rfl
  rw [h0, List.enum_eq_enumFrom,
    foldl_writeSlice M.nk
      (fun p => (skPredict C p.2.sdscale p.2.param_limits p.2.interp
        (zparamsFor params tau0 p.1)).1.headD [])
      M.gps 0 []
      (fun p hp => hw p (by rw [List.enum_eq_enumFrom]; exact hp)) (by simp),
    List.nil_append]

/-- The column slice `[i*nk, (i+1)*nk)` of the predicted means equals the
`i`-th per-redshift emulator's mean row. -/
lemma multiBinPredict_slice {G : Type} (C : GPConfig G) (M : MultiBin G) (params : Mat)
    (tau0 : Option Vec)
    (hnz : M.gps.length = M.nz)
    (hw : ∀ p ∈ M.gps.enum,
      ((skPredict C p.2.sdscale p.2.param_limits p.2.interp
          (zparamsFor params tau0 p.1)).1.headD []).length = M.nk)
    (i : Nat) (hi : i < M.gps.length) :
    (((multiBinPredict C M params tau0).1.drop (i * M.nk)).take M.nk)
      = (skPredict C (M.gps.get ⟨i, hi⟩).sdscale (M.gps.get ⟨i, hi⟩).param_limits
          (M.gps.get ⟨i, hi⟩).interp (zparamsFor params tau0 i)).1.headD [] := by
  rw [multiBinPredict_means C M params tau0 hnz hw]
  have hws : ∀ v ∈ M.gps.enum.map (fun p =>
      (skPredict C p.2.sdscale p.2.param_limits p.2.interp
        (zparamsFor params tau0 p.1)).1.headD []), v.length = M.nk := by
    intro v hv
    rcases List.mem_map.mp hv with ⟨p, hp, rfl⟩
    exact hw p hp
  have hlen : (M.gps.enum.map (fun p =>
      (skPredict C p.2.sdscale p.2.param_limits p.2.interp
        (zparamsFor params tau0 p.1)).1.headD [])).length = M.gps.length := by
    rw [List.length_map, List.enum_eq_enumFrom, List.enumFrom_length]
  rw [flatten_slice M.nk _ hws i (by rw [hlen]; exact hi)]
  have hpair : M.gps.enum[i]? = some (i, M.gps.get ⟨i, hi⟩) := by
    rw [List.enum_eq_enumFrom, List.getElem?_enumFrom, List.getElem?_eq_getElem hi]
    simp [List.get_eq_getElem]
  rw [List.getD_eq_getElem?_getD, List.getElem?_map, hpair]
  rfl

/-- C6: `MultiBinGP` construction requires the number of columns of `powers`
to be an exact multiple of the number of wavenumber bins `nk` (the assertion
fails otherwise); when it holds, exactly `nz = columns/nk` per-redshift
emulators are built, the `i`-th trained on the contiguous column slice
`[i*nk, (i+1)*nk)`, and `predict` writes the `i`-th emulator's mean into the
same slice of the output, so the concatenated prediction preserves
per-wavenumber-bin, per-redshift-bin structure.  The hypothesis `0 < kf.length`
matches Python, where `nk = 0` raises `ZeroDivisionError` at the modulus
before the assertion is reached; the claim presupposes wavenumber bins. -/
theorem multibin_bin_structure {G : Type} (C : GPConfig G) (params : Mat) (kf : Vec)
    (powers pl : Mat) (coreg : Bool) (hk : 0 < kf.length) :
    (¬ kf.length ∣ numCols powers → multiBinInit C params kf powers pl coreg = none)
    ∧ (kf.length ∣ numCols powers →
       ∃ M : MultiBin G, multiBinInit C params kf powers pl coreg = some M
         ∧ M.nk = kf.length
         ∧ M.nz = numCols powers / kf.length
         ∧ M.gps.length = numCols powers / kf.length
         ∧ M.gps = (List.range (numCols powers / kf.length)).map (fun i =>
             (skInit C params (colSlice powers (i * kf.length) ((i + 1) * kf.length))
               pl coreg true).1)
         ∧ ∀ (ps : Mat) (tau0 : Option Vec),
             (∀ p ∈ M.gps.enum,
               ((skPredict C p.2.sdscale p.2.param_limits p.2.interp
                   (zparamsFor ps tau0 p.1)).1.headD []).length = M.nk) →
             ∀ (i : Nat) (hi : i < M.gps.length),
               (((multiBinPredict C M ps tau0).1.drop (i * M.nk)).take M.nk)
                 = (skPredict C (M.gps.get ⟨i, hi⟩).sdscale
                     (M.gps.get ⟨i, hi⟩).param_limits
                     (M.gps.get ⟨i, hi⟩).interp (zparamsFor ps tau0 i)).1.headD []) := by
  constructor
  · intro hnd
    simp only [multiBinInit]
    rw [if_neg]
    intro hmod
    exact hnd (Nat.dvd_iff_mod_eq_zero.mpr hmod)
  · intro hd
    simp only [multiBinInit]
    rw [if_pos (Nat.dvd_iff_mod_eq_zero.mp hd)]
    refine ⟨_, rfl, rfl, rfl, by simp, rfl, ?_⟩
    intro ps tau0 hwp i hi
    exact multiBinPredict_slice C _ ps tau0 (by simp) hwp i hi

/-- Witness for `multibin_bin_structure` at a concrete input. -/
theorem multibin_bin_structure_witness :
    (0 < ([(0:ℚ)] : Vec).length ∧ ([(0:ℚ)] : Vec).length ∣ numCols ([[5, 6]] : Mat))
    ∧ ∃ M : MultiBin Unit,
        multiBinInit unitCfg [[1]] [0] [[5, 6]] [] false = some M
        ∧ M.nk = 1 ∧ M.nz = 2 ∧ M.gps.length = 2
        ∧ ∀ (hi : 0 < M.gps.length),
            (((multiBinPredict unitCfg M [[1]] none).1.drop (0 * M.nk)).take M.nk)
              = (skPredict unitCfg (M.gps.get ⟨0, hi⟩).sdscale
                  (M.gps.get ⟨0, hi⟩).param_limits (M.gps.get ⟨0, hi⟩).interp
                  (zparamsFor [[1]] none 0)).1.headD [] := by
  obtain ⟨M, hsome, hnk, hnz2, hlen, hgps, hpred⟩ :=
    (multibin_bin_structure unitCfg [[1]] [0] [[5, 6]] [] false (by decide)).2 (by decide)
  refine ⟨⟨by decide, by decide⟩, M, hsome, hnk, hnz2, by rw [hlen]; rfl, ?_⟩
  intro hi
  have hw : ∀ p ∈ M.gps.enum,
      ((skPredict unitCfg p.2.sdscale p.2.param_limits p.2.interp
          (zparamsFor [[1]] none p.1)).1.headD []).length = M.nk := by
    rw [hgps, hnk]
    decide
  exact hpred [[1]] none hw 0 hi

/-- C10: `MultiBinGP.predict` never mutates its `params` argument: each
per-redshift iteration copies `params` into a fresh array (`np.array(params)`)
before scaling entry `[0][0]` by `tau0_factors[i]`.  In this pure embedding the
caller's array is a value and is returned unchanged by construction; the
content of the claim is that every entry of the array passed to the `i`-th
emulator agrees with the caller's original `params` except entry `[0][0]`,
which is the original value times `tau0_factors[i]` — a single factor, not a
product compounded across bins — and that with `tau0_factors = None` the
array is passed through unchanged; the predicted means are those of the
per-bin emulators evaluated at these arrays derived from the original
`params`. -/
theorem predict_params_not_mutated (params : Mat) (t : Vec) (i : Nat) :
    (∀ r c : Nat, ((zparamsFor params (some t) i).getD r []).getD c 0
      = if r = 0 ∧ c = 0 then ((params.getD 0 []).getD 0 0) * t.getD i 1
        else (params.getD r []).getD c 0)
    ∧ zparamsFor params none i = params
    ∧ (∀ {G : Type} (C : GPConfig G) (M : MultiBin G) (tau0 : Option Vec),
        M.gps.length = M.nz →
        (∀ p ∈ M.gps.enum,
          ((skPredict C p.2.sdscale p.2.param_limits p.2.interp
              (zparamsFor params tau0 p.1)).1.headD []).length = M.nk) →
        (multiBinPredict C M params tau0).1
          = (M.gps.enum.map (fun p =>
              (skPredict C p.2.sdscale p.2.param_limits p.2.interp
                (zparamsFor params tau0 p.1)).1.headD [])).flatten) := by
  refine ⟨?_, rfl, fun C M tau0 hnz hw => multiBinPredict_means C M params tau0 hnz hw⟩
  intro r c
  cases params with
  | nil =>
    cases r <;> cases c <;> simp [zparamsFor]
  | cons p0 rest =>
    cases r with
    | zero =>
      cases c with
      | zero =>
        cases p0 with
        | nil => simp [zparamsFor]
        | cons a as => simp [zparamsFor]
      | succ c =>
        cases p0 with
        | nil => simp [zparamsFor]
        | cons a as => simp [zparamsFor]
    | succ r => simp [zparamsFor]

/-- Concrete `MultiBinGP` state used by the witness below. -/
def wMulti : MultiBin Unit :=
  { kf := [0], nk := 1, nz := 1, coreg := false,
    gps := [(skInit unitCfg [[2, 3], [4]] [[9]] [] false true).1] }

/-- Witness for `predict_params_not_mutated` at a concrete input. -/
theorem predict_params_not_mutated_witness :
    ((zparamsFor [[2, 3], [4]] (some [5, 7]) 0).getD 0 []).getD 0 0 = 2 * 5
    ∧ ((zparamsFor [[2, 3], [4]] (some [5, 7]) 0).getD 1 []).getD 0 0 = 4
    ∧ zparamsFor [[2, 3], [4]] none 0 = [[2, 3], [4]]
    ∧ wMulti.gps.length = wMulti.nz
    ∧ (multiBinPredict unitCfg wMulti [[2, 3], [4]] none).1
      = (wMulti.gps.enum.map (fun p =>
          (skPredict unitCfg p.2.sdscale p.2.param_limits p.2.interp
            (zparamsFor [[2, 3], [4]] none p.1)).1.headD [])).flatten := by
  have h := predict_params_not_mutated [[2, 3], [4]] [5, 7] 0
  refine ⟨?_, ?_, h.2.1, by decide,
    h.2.2 unitCfg wMulti none (by decide) (by decide)⟩
  · rw [h.1 0 0]
    simp
  · rw [h.1 1 0]
    simp
